import Mathlib

/-!
# Verification of the sales-forecasting pipeline

Shallow embedding of `src/SalesForecasting.js`: the feature encoder
(`preprocessData`), the training/forecast driver (`trainAndPredict`), and the
resource events of the 6-month forecast loop.  The JavaScript environment
primitives (`new Date(...).getMonth()`, `parseFloat`, `Object.keys` ordering,
strict `!== null` comparison, out-of-bounds indexing) are modelled explicitly;
the string parsers are parameters of the encoder, with concrete restricted
models supplied for evaluation at the spec's concrete inputs.
-/

namespace Sales

/-- A raw sales record, as consumed by the component's `data` prop:
`{ sales_date, product_description, quantity_sold }`, all strings. -/
structure Row where
  sales_date : String
  product_description : String
  quantity_sold : String
deriving DecidableEq, Repr

/-- A feature vector `[month, productIndex]` as built at
`return [salesDates[i], productMapping[row.product_description]]`. -/
abbrev FeatureVec := Nat × Nat

/-- Result of `preprocessData`: `{ inputs, outputs, productMapping }`.
The product mapping object is modelled as an association list in property
insertion order (`Object.fromEntries` inserts in argument order). -/
structure Preprocessed where
  inputs : List FeatureVec
  outputs : List ℚ
  productMapping : List (String × Nat)
deriving DecidableEq, Repr

/-- JavaScript `Set` insertion: `new Set` keeps the first occurrence of each
element, in insertion order.  One step of the set build. -/
def jsSetInsert (acc : List String) (x : String) : List String :=
  if x ∈ acc then acc else acc ++ [x]

/-- `[...new Set(l)]`: distinct elements of `l` in first-seen order. -/
def jsSetOfList (l : List String) : List String :=
  l.foldl jsSetInsert []

/-- JavaScript strict comparison `x !== null` applied to an element read from
the (already null-filtered) `inputs` array: an in-bounds read yields an array
value, which is not `null`; an out-of-bounds read yields `undefined`, and
`undefined !== null` is `true` under strict comparison.  We model the read
result as `Option FeatureVec` with `none` standing for `undefined`. -/
def jsStrictNeNull : Option FeatureVec → Bool
  | some _ => true
  | none => true

/-- The encoder body for a non-empty list (`preprocessData`, lines 39–66 of
`SalesForecasting.js`), parametric in the environment's date parser
(`parseMonth s` models `new Date(s).getMonth() + 1` guarded by `!isNaN`,
`none` standing for the `null` sentinel) and float parser (`parseQty s`
models `parseFloat(s)`, `none` standing for `NaN`). -/
def preprocessCore (parseMonth : String → Option Nat) (parseQty : String → Option ℚ)
    (data : List Row) : Preprocessed :=
  let salesDates : List (Option Nat) := data.map (fun row => parseMonth row.sales_date)
  let products : List String := jsSetOfList (data.map (·.product_description))
  let productMapping : List (String × Nat) := products.enum.map (fun ip => (ip.2, ip.1))
  let quantities : List ℚ := data.map (fun row => (parseQty row.quantity_sold).getD 0)
  let rawInputs : List (Option FeatureVec) :=
    (data.zip salesDates).map (fun rm =>
      match rm.2, List.lookup rm.1.product_description productMapping with
      | some m, some idx => some (m, idx)
      | _, _ => none)
  let inputs : List FeatureVec := rawInputs.filterMap id
  let outputs : List ℚ :=
    (quantities.enum.filter (fun iq => jsStrictNeNull (inputs.get? iq.1))).map (·.2)
  ⟨inputs, outputs, productMapping⟩

/-- Number of days in a month, as validated by the ECMAScript ISO date-time
parser (leap years included). -/
def daysInMonth (y m : Nat) : Nat :=
  if m = 2 then (if (y % 4 = 0 ∧ y % 100 ≠ 0) ∨ y % 400 = 0 then 29 else 28)
  else if m = 4 ∨ m = 6 ∨ m = 9 ∨ m = 11 then 30 else 31

/-- Split a character list at every occurrence of the separator `c`
(`"a-b".split("-")`-style; the result always has one more part than there are
separators). -/
def splitOnChar (c : Char) : List Char → List (List Char)
  | [] => [[]]
  | x :: xs =>
    match splitOnChar c xs with
    | [] => [[]]
    | y :: ys => if x = c then [] :: y :: ys else (x :: y) :: ys

/-- Read an all-digit, non-empty character list as a natural number;
any other list fails. -/
def digitsToNat? (l : List Char) : Option Nat :=
  if l ≠ [] ∧ l.all (·.isDigit) then
    some (l.foldl (fun acc c => acc * 10 + (c.toNat - 48)) 0)
  else none

/-- Restricted model of the environment's month extraction
`(d => { const date = new Date(d); return !isNaN(date) ? date.getMonth() + 1 : null })`,
covering date-only ISO strings `YYYY-MM-DD`: a well-formed in-range date yields
its one-based month, anything else is modelled as an invalid date (`null`).
(The JS builtin additionally accepts other formats, none of which occur in the
spec's concrete inputs; `getMonth` timezone shifts cannot change the month for
the mid-month days used here.) -/
def jsDateMonth (s : String) : Option Nat :=
  match splitOnChar (Char.ofNat 0x2d) s.toList with
  | [ys, ms, ds] =>
    match digitsToNat? ys, digitsToNat? ms, digitsToNat? ds with
    | some y, some m, some d =>
      if ys.length = 4 ∧ ms.length = 2 ∧ ds.length = 2 ∧
          1 ≤ m ∧ m ≤ 12 ∧ 1 ≤ d ∧ d ≤ daysInMonth y m then some m else none
    | _, _, _ => none
  | _ => none

/-- Restricted model of the environment's `parseFloat`, covering unsigned
decimal integer strings: `"5" ↦ some 5`; any other string is modelled as a
parse failure (`NaN`, i.e. `none`).  Sufficient for the spec's concrete
inputs, which use only integer quantities.  Note `parseFloat(s) || 0` sends
both `NaN` and `0` to `0`, so `(jsParseFloat s).getD 0` is faithful on this
fragment. -/
def jsParseFloat (s : String) : Option ℚ :=
  (digitsToNat? s.toList).map (fun n => (n : ℚ))

/-- `preprocessData` with its degenerate-input guard
(`if (!data || data.length === 0) return { inputs: [], outputs: [], productMapping: {} }`);
`none` models an `undefined` `data` prop. -/
def preprocessData (parseMonth : String → Option Nat) (parseQty : String → Option ℚ)
    (data : Option (List Row)) : Preprocessed :=
  match data with
  | none => ⟨[], [], []⟩
  | some d => if d.length = 0 then ⟨[], [], []⟩ else preprocessCore parseMonth parseQty d

/-- ECMAScript array-index key test: a property key is an array index iff it
is the canonical decimal representation of an integer `0 ≤ n < 2^32 - 1`
(all digits, no leading zero except for `"0"` itself). `Object.keys`
enumerates such keys first, in ascending numeric order. -/
def isArrayIndexKey (s : String) : Bool :=
  match digitsToNat? s.toList with
  | some n =>
    decide (n < 4294967295) &&
      (match s.toList with
       | [] => false
       | c :: cs => (c != Char.ofNat 0x30) || cs.isEmpty)
  | none => false

/-- Numeric value of an array-index key (`0` as a dummy on non-index keys). -/
def natKey (s : String) : Nat := (digitsToNat? s.toList).getD 0

/-- Ascending order on array-index keys, by numeric value. -/
def keyLE (a b : String) : Prop := natKey a ≤ natKey b

instance : DecidableRel keyLE := fun a b => Nat.decLe (natKey a) (natKey b)

/-- Model of `Object.keys` on an object built by `Object.fromEntries` with the
given (duplicate-free) entry insertion order: array-index keys first in
ascending numeric order, then the remaining string keys in insertion order
(ECMAScript `OrdinaryOwnPropertyKeys`). -/
def jsObjectKeys (entries : List (String × Nat)) : List String :=
  let keys := entries.map Prod.fst
  List.insertionSort keyLE (keys.filter isArrayIndexKey) ++
    keys.filter (fun k => !isArrayIndexKey k)

/-- A prediction record `{ product, sales_date, predicted }` pushed by the
forecast loop. -/
structure ForecastPoint where
  product : String
  sales_date : Nat
  predicted : ℚ
deriving DecidableEq, Repr

/-- The kind of a transient tensor buffer of one forecast iteration: the 1x2
input tensor (`tf.tensor2d([[i, productMapping[product]]])`) or the scalar
prediction tensor (`model.predict(...)`). -/
inductive BufKind
  | input
  | output
deriving DecidableEq, Repr

/-- A transient buffer, identified by its kind and the (month, product)
iteration that allocated it. -/
structure Buf where
  kind : BufKind
  month : Nat
  product : String
deriving DecidableEq, Repr

/-- Resource/pipeline events of `trainAndPredict`: one `train` for
`model.fit`, and per forecast iteration the buffer allocations, the
`dataSync()[0]` read and the `dispose()` calls, in program order. -/
inductive PEvent
  | train
  | alloc (b : Buf)
  | read (b : Buf)
  | dispose (b : Buf)
deriving DecidableEq, Repr

/-- Events of one forecast iteration (lines 96–102): allocate the 1x2 input
tensor, allocate the prediction tensor, read its scalar, dispose the
prediction tensor.  The input tensor is not disposed anywhere. -/
def iterEvents (i : Nat) (p : String) : List PEvent :=
  [.alloc ⟨.input, i, p⟩, .alloc ⟨.output, i, p⟩,
   .read ⟨.output, i, p⟩, .dispose ⟨.output, i, p⟩]

/-- The (month, product) iteration space of the forecast loop:
`for (let i = 1; i <= 6; i++) Object.keys(productMapping).forEach(...)`. -/
def forecastPairs (mapping : List (String × Nat)) : List (Nat × String) :=
  (List.range' 1 6).flatMap (fun i => (jsObjectKeys mapping).map (fun p => (i, p)))

/-- The `predictions` array built by the forecast loop, for an abstract
trained model `predict : month → productIndex → value`. -/
def forecastPoints (predict : Nat → Nat → ℚ) (mapping : List (String × Nat)) :
    List ForecastPoint :=
  (forecastPairs mapping).map
    (fun ip => ⟨ip.2, ip.1, predict ip.1 ((List.lookup ip.2 mapping).getD 0)⟩)

/-- The resource events of the whole forecast loop. -/
def forecastEvents (mapping : List (String × Nat)) : List PEvent :=
  (forecastPairs mapping).flatMap (fun ip => iterEvents ip.1 ip.2)

/-- Observable outcome of one `trainAndPredict` invocation: the event trace
and the predictions handed to `visualizeResults` (`none` when the run aborts
at the `inputs.length === 0 || outputs.length === 0` guard, before any
training or inference). -/
structure RunResult where
  events : List PEvent
  predictions : Option (List ForecastPoint)
deriving DecidableEq, Repr

/-- `trainAndPredict` (lines 79–112): preprocess, abort on empty
features/targets, otherwise train once and run the 6 × N forecast loop. -/
def trainAndPredict (parseMonth : String → Option Nat) (parseQty : String → Option ℚ)
    (predict : Nat → Nat → ℚ) (data : Option (List Row)) : RunResult :=
  let p := preprocessData parseMonth parseQty data
  if p.inputs.length = 0 ∨ p.outputs.length = 0 then ⟨[], none⟩
  else ⟨.train :: forecastEvents p.productMapping,
        some (forecastPoints predict p.productMapping)⟩

/-- Buffers allocated in a trace. -/
def allocatedBufs (evs : List PEvent) : List Buf :=
  evs.filterMap (fun e => match e with | .alloc b => some b | _ => none)

/-- Buffers disposed in a trace. -/
def disposedBufs (evs : List PEvent) : List Buf :=
  evs.filterMap (fun e => match e with | .dispose b => some b | _ => none)

/-- Buffers allocated but never disposed in a trace. -/
def leakedBufs (evs : List PEvent) : List Buf :=
  (allocatedBufs evs).filter (fun b => decide (b ∉ disposedBufs evs))

/-- The product mapping the encoder builds for a given input batch (the
`products`/`productMapping` lines of `preprocessData`, factored out). -/
def productMappingOf (data : List Row) : List (String × Nat) :=
  (jsSetOfList (data.map (·.product_description))).enum.map (fun ip => (ip.2, ip.1))

/-- Specification-side description of product deduplication: the distinct
elements of a list "in order of first appearance across the full input"
(spec §4.1).  Stated independently of the `Set`-fold in the source, to be
compared with `jsSetOfList`. -/
def firstSeenDistinct : List String → List String
  | [] => []
  | x :: xs => x :: (firstSeenDistinct xs).filter (fun y => y ≠ x)

/-- The spec's two-record concrete input:
`[{date: "2024-01-15", product: "A", qty: "5"}, {date: "bad-date", product: "B", qty: "3"}]`. -/
def pairInput : List Row :=
  [⟨"2024-01-15", "A", "5"⟩, ⟨"bad-date", "B", "3"⟩]

/-- A batch whose second record has an unparseable quantity. -/
def coercionInput : List Row :=
  [⟨"2024-01-15", "A", "5"⟩, ⟨"2024-03-10", "B", "not-a-number"⟩]

/-- A batch in which every record's date fails to parse (so encoding yields
no features). -/
def allBadInput : List Row :=
  [⟨"nope", "A", "3"⟩]

/-- A batch whose second product name is the canonical array-index string
`"1"` (first-seen product order: `["B", "1"]`). -/
def intKeyInput : List Row :=
  [⟨"2024-01-15", "B", "5"⟩, ⟨"2024-02-15", "1", "3"⟩]

/-- A valid single-product batch (used to exercise the forecast loop). -/
def oneProductInput : List Row :=
  [⟨"2024-01-15", "A", "5"⟩]

/-- The 1x2 input buffer of a forecast iteration. -/
def inputBufOf (ip : Nat × String) : Buf := ⟨.input, ip.1, ip.2⟩

/-- The scalar prediction buffer of a forecast iteration. -/
def outputBufOf (ip : Nat × String) : Buf := ⟨.output, ip.1, ip.2⟩

/-! ## Helper lemmas -/

theorem jsStrictNeNull_true (x : Option FeatureVec) : jsStrictNeNull x = true := by
  cases x <;> rfl

/-- The targets bug: because `inputs` is already null-filtered when the
`outputs` filter reads it, `inputs[i] !== null` holds at every index (either
an array value or `undefined`), so `outputs` is all of `quantities`. -/
theorem preprocessCore_outputs (parseMonth : String → Option Nat)
    (parseQty : String → Option ℚ) (data : List Row) :
    (preprocessCore parseMonth parseQty data).outputs =
      data.map (fun row => (parseQty row.quantity_sold).getD 0) := by
  show ((((data.map (fun row => (parseQty row.quantity_sold).getD 0)).enum).filter _).map _) = _
  rw [List.filter_eq_self.mpr (fun a _ => jsStrictNeNull_true _), List.enum_map_snd]

theorem preprocessData_some_outputs (parseMonth : String → Option Nat)
    (parseQty : String → Option ℚ) (data : List Row) :
    (preprocessData parseMonth parseQty (some data)).outputs =
      data.map (fun row => (parseQty row.quantity_sold).getD 0) := by
  cases data with
  | nil => rfl
  | cons r rs => exact preprocessCore_outputs parseMonth parseQty (r :: rs)

theorem preprocessData_some_mapping (parseMonth : String → Option Nat)
    (parseQty : String → Option ℚ) (data : List Row) :
    (preprocessData parseMonth parseQty (some data)).productMapping =
      productMappingOf data := by
  cases data with
  | nil => rfl
  | cons r rs => rfl

/-- The `inputs` list is the in-order `filterMap` of the per-record feature
extraction over the raw input. -/
theorem preprocessCore_inputs (parseMonth : String → Option Nat)
    (parseQty : String → Option ℚ) (data : List Row) :
    (preprocessCore parseMonth parseQty data).inputs =
      data.filterMap (fun row =>
        match parseMonth row.sales_date,
          List.lookup row.product_description (productMappingOf data) with
        | some m, some idx => some (m, idx)
        | _, _ => none) := by
  show List.filterMap id (((data.zip (data.map fun row => parseMonth row.sales_date)).map _)) = _
  rw [show data.zip (data.map fun row => parseMonth row.sales_date) =
        data.map (fun row => (row, parseMonth row.sales_date)) from by
      nth_rewrite 1 [← List.map_id data]
      rw [List.zip_map']
      rfl]
  rw [List.map_map, List.filterMap_map]
  rfl

theorem preprocessData_some_inputs (parseMonth : String → Option Nat)
    (parseQty : String → Option ℚ) (data : List Row) :
    (preprocessData parseMonth parseQty (some data)).inputs =
      data.filterMap (fun row =>
        match parseMonth row.sales_date,
          List.lookup row.product_description (productMappingOf data) with
        | some m, some idx => some (m, idx)
        | _, _ => none) := by
  cases data with
  | nil => rfl
  | cons r rs => exact preprocessCore_inputs parseMonth parseQty (r :: rs)

theorem foldl_jsSetInsert (l : List String) : ∀ acc : List String,
    l.foldl jsSetInsert acc =
      acc ++ (firstSeenDistinct l).filter (fun y => decide (y ∉ acc)) := by
  induction l with
  | nil => intro acc; simp [firstSeenDistinct]
  | cons x xs ih =>
    intro acc
    rw [List.foldl_cons, ih (jsSetInsert acc x), firstSeenDistinct]
    by_cases hx : x ∈ acc
    · rw [jsSetInsert, if_pos hx, List.filter_cons_of_neg (by simpa using hx),
        List.filter_filter]
      congr 1
      refine List.filter_congr fun y _ => ?_
      by_cases hyx : y = x
      · subst hyx; simp [hx]
      · simp [hyx]
    · rw [jsSetInsert, if_neg hx, List.filter_cons_of_pos (by simpa using hx),
        List.filter_filter, List.append_assoc, List.singleton_append]
      congr 2
      refine List.filter_congr fun y _ => ?_
      simp [not_or, and_comm, Bool.and_comm]

theorem jsSetOfList_eq_firstSeenDistinct (l : List String) :
    jsSetOfList l = firstSeenDistinct l := by
  rw [jsSetOfList, foldl_jsSetInsert l [], List.nil_append]
  refine List.filter_eq_self.mpr fun a _ => by simp

theorem mem_firstSeenDistinct (l : List String) (p : String) :
    p ∈ firstSeenDistinct l ↔ p ∈ l := by
  induction l with
  | nil => simp [firstSeenDistinct]
  | cons x xs ih =>
    rw [firstSeenDistinct]
    by_cases hpx : p = x
    · subst hpx; simp
    · simp [hpx, ih, List.mem_filter]

theorem nodup_firstSeenDistinct (l : List String) : (firstSeenDistinct l).Nodup := by
  induction l with
  | nil => exact List.nodup_nil
  | cons x xs ih =>
    rw [firstSeenDistinct]
    refine List.nodup_cons.mpr ⟨fun hx => ?_, ih.filter _⟩
    have := (List.mem_filter.mp hx).2
    simp at this

/-- The product mapping, written with an explicit running index: equal to the
`enumFrom`-with-swap form used by the encoder. -/
def mappingFrom (n : Nat) : List String → List (String × Nat)
  | [] => []
  | x :: xs => (x, n) :: mappingFrom (n + 1) xs

theorem enumFrom_swap_eq_mappingFrom (l : List String) : ∀ n : Nat,
    (List.enumFrom n l).map (fun ip => (ip.2, ip.1)) = mappingFrom n l := by
  induction l with
  | nil => intro n; rfl
  | cons x xs ih => intro n; rw [List.enumFrom_cons, List.map_cons, ih (n + 1)]; rfl

theorem productMappingOf_eq_mappingFrom (data : List Row) :
    productMappingOf data =
      mappingFrom 0 (jsSetOfList (data.map (·.product_description))) :=
  enumFrom_swap_eq_mappingFrom _ 0

theorem lookup_mappingFrom (l : List String) (hl : l.Nodup) : ∀ (n : Nat) (p : String) (i : Nat),
    List.lookup p (mappingFrom n l) = some i ↔ n ≤ i ∧ l.get? (i - n) = some p := by
  induction l with
  | nil => intro n p i; simp [mappingFrom]
  | cons x xs ih =>
    intro n p i
    by_cases hpx : p = x
    · subst hpx
      simp only [mappingFrom, List.lookup_cons, beq_self_eq_true, Option.some.injEq]
      constructor
      · rintro rfl
        simp [Nat.sub_self]
      · rintro ⟨hni, hget⟩
        rcases Nat.eq_or_lt_of_le hni with h | h
        · omega
        · exfalso
          obtain ⟨j, hj⟩ : ∃ j, i - n = j + 1 := ⟨i - n - 1, by omega⟩
          rw [hj, List.get?_cons_succ] at hget
          exact (List.nodup_cons.mp hl).1 (List.get?_mem hget)
    · have hbeq : (p == x) = false := by simp [hpx]
      simp only [mappingFrom, List.lookup_cons, hbeq]
      rw [ih (List.nodup_cons.mp hl).2 (n + 1) p i]
      constructor
      · rintro ⟨hni, hget⟩
        refine ⟨by omega, ?_⟩
        obtain ⟨j, hj⟩ : ∃ j, i - n = j + 1 := ⟨i - n - 1, by omega⟩
        rw [hj, List.get?_cons_succ]
        have : i - (n + 1) = j := by omega
        rwa [this] at hget
      · rintro ⟨hni, hget⟩
        rcases Nat.eq_or_lt_of_le hni with h | h
        · exfalso
          rw [← h, Nat.sub_self, List.get?_cons_zero, Option.some.injEq] at hget
          exact hpx hget.symm
        · refine ⟨by omega, ?_⟩
          obtain ⟨j, hj⟩ : ∃ j, i - n = j + 1 := ⟨i - n - 1, by omega⟩
          rw [hj, List.get?_cons_succ] at hget
          have : i - (n + 1) = j := by omega
          rwa [this]

/-- Lookup in the encoder's product mapping is exactly positional indexing
into the first-seen distinct product list. -/
theorem lookup_productMappingOf (data : List Row) (p : String) (i : Nat) :
    List.lookup p (productMappingOf data) = some i ↔
      (jsSetOfList (data.map (·.product_description))).get? i = some p := by
  rw [productMappingOf_eq_mappingFrom,
    lookup_mappingFrom _ (by rw [jsSetOfList_eq_firstSeenDistinct]; exact nodup_firstSeenDistinct _) 0 p i]
  simp

theorem filterMap_flatMap_eq (l : List (Nat × String)) (g : Nat × String → List PEvent)
    (f : PEvent → Option Buf) :
    List.filterMap f (l.flatMap g) = l.flatMap (fun a => List.filterMap f (g a)) := by
  induction l with
  | nil => rfl
  | cons x xs ih => rw [List.flatMap_cons, List.filterMap_append, ih, List.flatMap_cons]

theorem flatMap_singleton_eq_map (l : List (Nat × String)) (f : Nat × String → Buf) :
    (l.flatMap fun a => [f a]) = l.map f := by
  induction l with
  | nil => rfl
  | cons x xs ih => rw [List.flatMap_cons, ih, List.map_cons, List.singleton_append]

theorem allocatedBufs_forecastEvents (mapping : List (String × Nat)) :
    allocatedBufs (forecastEvents mapping) =
      (forecastPairs mapping).flatMap (fun ip => [inputBufOf ip, outputBufOf ip]) := by
  rw [forecastEvents, allocatedBufs, filterMap_flatMap_eq]
  rfl

theorem disposedBufs_forecastEvents (mapping : List (String × Nat)) :
    disposedBufs (forecastEvents mapping) = (forecastPairs mapping).map outputBufOf := by
  rw [forecastEvents, disposedBufs, filterMap_flatMap_eq, ← flatMap_singleton_eq_map]
  rfl

theorem inputBufOf_not_mem_outputs (x : Nat × String) (l : List (Nat × String)) :
    inputBufOf x ∉ l.map outputBufOf := by
  intro hmem
  obtain ⟨ip, _, he⟩ := List.mem_map.mp hmem
  simpa [inputBufOf, outputBufOf] using congrArg Buf.kind he

theorem leak_filter (all : List (Nat × String)) : ∀ pairs : List (Nat × String),
    (∀ ip ∈ pairs, ip ∈ all) →
    (pairs.flatMap fun ip => [inputBufOf ip, outputBufOf ip]).filter
      (fun b => decide (b ∉ all.map outputBufOf)) = pairs.map inputBufOf := by
  intro pairs
  induction pairs with
  | nil => intro _; rfl
  | cons x xs ih =>
    intro hsub
    rw [List.flatMap_cons, List.filter_append,
      ih (fun ip hip => hsub ip (List.mem_cons_of_mem x hip))]
    have h1 : inputBufOf x ∉ all.map outputBufOf := inputBufOf_not_mem_outputs x all
    have h2 : outputBufOf x ∈ all.map outputBufOf :=
      List.mem_map_of_mem outputBufOf (hsub x (List.mem_cons_self x xs))
    simp [List.filter_cons, h1, h2]

/-- Keys of the encoder's product mapping, in insertion order, are exactly
the first-seen distinct products. -/
theorem keys_productMappingOf (data : List Row) :
    (productMappingOf data).map Prod.fst = jsSetOfList (data.map (·.product_description)) := by
  rw [productMappingOf, List.map_map]
  exact List.enum_map_snd _

/-- `Object.keys` output is a permutation of the insertion-ordered key list. -/
theorem jsObjectKeys_perm (entries : List (String × Nat)) :
    List.Perm (jsObjectKeys entries) (entries.map Prod.fst) := by
  rw [jsObjectKeys]
  exact ((List.perm_insertionSort keyLE _).append_right _).trans
    (List.filter_append_perm isArrayIndexKey (entries.map Prod.fst))

/-- When no key is a canonical array index, `Object.keys` preserves insertion
order. -/
theorem jsObjectKeys_of_no_index_keys (entries : List (String × Nat))
    (h : ∀ k ∈ entries.map Prod.fst, isArrayIndexKey k = false) :
    jsObjectKeys entries = entries.map Prod.fst := by
  rw [jsObjectKeys]
  rw [show (entries.map Prod.fst).filter isArrayIndexKey = [] from
    List.filter_eq_nil_iff.mpr (fun a ha => by simp [h a ha])]
  rw [show (entries.map Prod.fst).filter (fun k => !isArrayIndexKey k) = entries.map Prod.fst from
    List.filter_eq_self.mpr (fun a ha => by simp [h a ha])]
  rfl

/-! ## Claim theorems -/

/-- C1 (code_bug evaluation): the count invariant `|features| == |targets|`
fails on the code.  At the spec's two-record input, the date-invalid record
is dropped from `inputs` but its target is retained in `outputs` (the
`outputs` filter tests the already-filtered `inputs` array, where both
in-bounds arrays and out-of-bounds `undefined` are `!== null`), so one
feature faces two targets. -/
theorem C1_count_invariant_fails_at_pairInput :
    (preprocessData jsDateMonth jsParseFloat (some pairInput)).inputs.length = 1 ∧
    (preprocessData jsDateMonth jsParseFloat (some pairInput)).outputs.length = 2 := by
  decide

/-- C2 (code_bug evaluation): at the spec's two-record input the encoder
returns one FeatureVector `[1, 0]` as claimed, but two targets `[5, 3]`
instead of the claimed single target `5.0`: the `bad-date` record still
contributes its target. -/
theorem C2_pairInput_full_result :
    preprocessData jsDateMonth jsParseFloat (some pairInput) =
      ⟨[(1, 0)], [5, 3], [("A", 0), ("B", 1)]⟩ := by
  decide

/-- C4: a record contributes a FeatureVector iff its month parses and its
product lookup is defined, the survivors keeping input order (the `inputs`
list is an in-order `filterMap` of the per-record extraction), and month
extraction is total (one sentinel-valued entry per record, never an
exception). -/
theorem C4_inclusion_rule (parseMonth : String → Option Nat) (parseQty : String → Option ℚ)
    (data : List Row) :
    (preprocessData parseMonth parseQty (some data)).inputs =
      data.filterMap (fun row =>
        match parseMonth row.sales_date,
          List.lookup row.product_description (productMappingOf data) with
        | some m, some idx => some (m, idx)
        | _, _ => none) ∧
    (data.map (fun row => parseMonth row.sales_date)).length = data.length :=
  ⟨preprocessData_some_inputs parseMonth parseQty data, by simp⟩

/-- C5: a record whose quantity fails to parse is kept, with `0` substituted
as its target (`parseFloat(...) || 0`): the output at that record's index is
`some 0`. -/
theorem C5_quantity_coercion (parseMonth : String → Option Nat)
    (parseQty : String → Option ℚ) (data : List Row) (i : Nat) (row : Row)
    (hrow : data.get? i = some row) (hfail : parseQty row.quantity_sold = none) :
    (preprocessData parseMonth parseQty (some data)).outputs.get? i = some 0 := by
  rw [preprocessData_some_outputs, List.get?_map, hrow, Option.map_some', hfail]
  rfl

/-- Witness for C5 at the concrete record `{qty: "not-a-number"}`. -/
theorem C5_quantity_coercion_witness :
    coercionInput.get? 1 = some ⟨"2024-03-10", "B", "not-a-number"⟩ ∧
    jsParseFloat "not-a-number" = none ∧
    (preprocessData jsDateMonth jsParseFloat (some coercionInput)).outputs.get? 1 = some 0 :=
  ⟨by decide, by decide,
    C5_quantity_coercion jsDateMonth jsParseFloat coercionInput 1
      ⟨"2024-03-10", "B", "not-a-number"⟩ (by decide) (by decide)⟩

/-- C6: the ProductIndex assigns zero-based indices to the distinct product
descriptions in first-appearance order: the key list is the first-seen
distinct-product list, duplicate-free, covering exactly the products of the
batch, and `lookup p = some i` holds exactly when `p` is the `i`-th distinct
product — in particular the assignment is injective and total on distinct
products (bijective), and equal descriptions get equal indices. -/
theorem C6_product_index (parseMonth : String → Option Nat) (parseQty : String → Option ℚ)
    (data : List Row) :
    (preprocessData parseMonth parseQty (some data)).productMapping = productMappingOf data ∧
    jsSetOfList (data.map (·.product_description)) =
      firstSeenDistinct (data.map (·.product_description)) ∧
    (jsSetOfList (data.map (·.product_description))).Nodup ∧
    (∀ p, p ∈ jsSetOfList (data.map (·.product_description)) ↔
      p ∈ data.map (·.product_description)) ∧
    (∀ p i, List.lookup p (productMappingOf data) = some i ↔
      (jsSetOfList (data.map (·.product_description))).get? i = some p) ∧
    (∀ p q i, List.lookup p (productMappingOf data) = some i →
      List.lookup q (productMappingOf data) = some i → p = q) := by
  refine ⟨preprocessData_some_mapping parseMonth parseQty data,
    jsSetOfList_eq_firstSeenDistinct _, ?_, ?_, lookup_productMappingOf data, ?_⟩
  · rw [jsSetOfList_eq_firstSeenDistinct]; exact nodup_firstSeenDistinct _
  · intro p
    rw [jsSetOfList_eq_firstSeenDistinct]
    exact mem_firstSeenDistinct _ p
  · intro p q i hp hq
    have hp' := (lookup_productMappingOf data p i).mp hp
    have hq' := (lookup_productMappingOf data q i).mp hq
    exact Option.some_inj.mp (hp' ▸ hq' ▸ rfl)

/-- C7: an `undefined` or empty input yields empty features, targets and
ProductIndex, and the pipeline emits no events (no training, no inference)
and no predictions. -/
theorem C7_empty_input_short_circuit (parseMonth : String → Option Nat)
    (parseQty : String → Option ℚ) (predict : Nat → Nat → ℚ) :
    preprocessData parseMonth parseQty none = ⟨[], [], []⟩ ∧
    preprocessData parseMonth parseQty (some []) = ⟨[], [], []⟩ ∧
    trainAndPredict parseMonth parseQty predict none = ⟨[], none⟩ ∧
    trainAndPredict parseMonth parseQty predict (some []) = ⟨[], none⟩ :=
  ⟨rfl, rfl, rfl, rfl⟩

/-- C8: when encoding leaves `inputs` or `outputs` empty, `trainAndPredict`
returns at the guard: the event trace is empty (no training, no inference)
and no predictions are produced. -/
theorem C8_empty_encoding_aborts (parseMonth : String → Option Nat)
    (parseQty : String → Option ℚ) (predict : Nat → Nat → ℚ) (data : Option (List Row))
    (h : (preprocessData parseMonth parseQty data).inputs = [] ∨
      (preprocessData parseMonth parseQty data).outputs = []) :
    trainAndPredict parseMonth parseQty predict data = ⟨[], none⟩ := by
  rcases h with h | h <;> simp [trainAndPredict, h]

/-- Witness for C8: a batch whose only date fails to parse encodes to empty
features, and the run aborts. -/
theorem C8_empty_encoding_aborts_witness :
    (preprocessData jsDateMonth jsParseFloat (some allBadInput)).inputs = [] ∧
    trainAndPredict jsDateMonth jsParseFloat (fun _ _ => 0) (some allBadInput) = ⟨[], none⟩ :=
  ⟨by decide,
    C8_empty_encoding_aborts jsDateMonth jsParseFloat (fun _ _ => 0) (some allBadInput)
      (Or.inl (by decide))⟩

/-- C10: for every record of the batch the product lookup is defined (the
mapping is built from the same batch), so the `undefined`-index branch of the
inclusion test is unreachable and a record is excluded exactly when its date
fails to parse. -/
theorem C10_lookup_total_exclusion_iff_date (parseMonth : String → Option Nat)
    (parseQty : String → Option ℚ) (data : List Row) (row : Row) (h : row ∈ data) :
    (List.lookup row.product_description (productMappingOf data)).isSome = true ∧
    (preprocessData parseMonth parseQty (some data)).inputs =
      data.filterMap (fun r => (parseMonth r.sales_date).map
        (fun m => (m, (List.lookup r.product_description (productMappingOf data)).getD 0))) := by
  have lookup_some : ∀ r ∈ data,
      (List.lookup r.product_description (productMappingOf data)).isSome = true := by
    intro r hr
    have hmem : r.product_description ∈ jsSetOfList (data.map (·.product_description)) := by
      rw [jsSetOfList_eq_firstSeenDistinct, mem_firstSeenDistinct]
      exact List.mem_map_of_mem (·.product_description) hr
    obtain ⟨i, hi⟩ := List.mem_iff_get?.mp hmem
    rw [Option.isSome_iff_exists]
    exact ⟨i, (lookup_productMappingOf data r.product_description i).mpr hi⟩
  refine ⟨lookup_some row h, ?_⟩
  rw [preprocessData_some_inputs]
  refine List.filterMap_congr fun r hr => ?_
  obtain ⟨idx, hidx⟩ := Option.isSome_iff_exists.mp (lookup_some r hr)
  cases parseMonth r.sales_date <;> simp [hidx]

/-- C3 (counterexample): the inner forecast loop does not follow ProductIndex
insertion order for every batch.  With first-seen products `["B", "1"]`, the
key `"1"` is a canonical array index, so `Object.keys` enumerates it first
and the per-month product sequence is `["1", "B"]`, not the insertion order
repeated. -/
theorem C3_insertion_order_counterexample :
    jsSetOfList (intKeyInput.map (·.product_description)) = ["B", "1"] ∧
    ¬ (((trainAndPredict jsDateMonth jsParseFloat (fun _ _ => 0)
          (some intKeyInput)).predictions.getD []).map (fun fp => fp.product) =
        (List.range' 1 6).flatMap
          (fun _ => jsSetOfList (intKeyInput.map (·.product_description)))) := by
  decide

/-- C3 (amended): the forecaster emits exactly `6 × N` points, outer loop by
month `1..6` ascending, inner loop in `Object.keys` order — a permutation of
the insertion order that front-loads canonical array-index product names in
ascending numeric order, and equals insertion order whenever no product name
is such an index string.  Months of emitted points cover exactly `{1,...,6}`
(when at least one product exists) and products cover exactly the known
products. -/
theorem C3_amended_forecast_shape (predict : Nat → Nat → ℚ) (data : List Row) :
    (forecastPoints predict (productMappingOf data)).length =
      6 * (jsSetOfList (data.map (·.product_description))).length ∧
    forecastPoints predict (productMappingOf data) =
      (List.range' 1 6).flatMap (fun m => (jsObjectKeys (productMappingOf data)).map
        (fun p => ⟨p, m, predict m ((List.lookup p (productMappingOf data)).getD 0)⟩)) ∧
    List.Perm (jsObjectKeys (productMappingOf data))
      (jsSetOfList (data.map (·.product_description))) ∧
    (∀ fp ∈ forecastPoints predict (productMappingOf data),
      1 ≤ fp.sales_date ∧ fp.sales_date ≤ 6 ∧
        fp.product ∈ jsSetOfList (data.map (·.product_description))) ∧
    (∀ m, (∃ fp ∈ forecastPoints predict (productMappingOf data), fp.sales_date = m) ↔
      1 ≤ m ∧ m ≤ 6 ∧ jsSetOfList (data.map (·.product_description)) ≠ []) ∧
    (∀ p, (∃ fp ∈ forecastPoints predict (productMappingOf data), fp.product = p) ↔
      p ∈ jsSetOfList (data.map (·.product_description))) ∧
    ((∀ p ∈ jsSetOfList (data.map (·.product_description)), isArrayIndexKey p = false) →
      jsObjectKeys (productMappingOf data) = jsSetOfList (data.map (·.product_description))) := by
  have hkeys : (productMappingOf data).map Prod.fst =
      jsSetOfList (data.map (·.product_description)) := keys_productMappingOf data
  have hperm : List.Perm (jsObjectKeys (productMappingOf data))
      (jsSetOfList (data.map (·.product_description))) :=
    hkeys ▸ jsObjectKeys_perm (productMappingOf data)
  have hr : List.range' 1 6 = [1, 2, 3, 4, 5, 6] := rfl
  have hmem_pts : ∀ fp, fp ∈ forecastPoints predict (productMappingOf data) ↔
      ∃ m ∈ List.range' 1 6, ∃ p ∈ jsObjectKeys (productMappingOf data),
        fp = ⟨p, m, predict m ((List.lookup p (productMappingOf data)).getD 0)⟩ := by
    intro fp
    rw [forecastPoints, List.mem_map]
    constructor
    · rintro ⟨ip, hip, rfl⟩
      obtain ⟨m, hm, hip2⟩ := List.mem_flatMap.mp hip
      obtain ⟨p, hp, rfl⟩ := List.mem_map.mp hip2
      exact ⟨m, hm, p, hp, rfl⟩
    · rintro ⟨m, hm, p, hp, rfl⟩
      exact ⟨(m, p), List.mem_flatMap_of_mem hm (List.mem_map_of_mem _ hp), rfl⟩
  refine ⟨?_, ?_, hperm, ?_, ?_, ?_, ?_⟩
  · rw [forecastPoints, List.length_map, forecastPairs, hr]
    simp only [List.flatMap_cons, List.flatMap_nil, List.length_append,
      List.length_map, List.length_nil]
    rw [hperm.length_eq]
    ring
  · rw [forecastPoints, forecastPairs, List.map_flatMap]
    congr 1
    funext i
    rw [List.map_map]
    rfl
  · intro fp hfp
    obtain ⟨m, hm, p, hp, rfl⟩ := (hmem_pts fp).mp hfp
    obtain ⟨i, hi, rfl⟩ := List.mem_range'.mp hm
    refine ⟨?_, ?_, hperm.mem_iff.mp hp⟩
    · show 1 ≤ 1 + 1 * i
      omega
    · show 1 + 1 * i ≤ 6
      omega
  · intro m
    constructor
    · rintro ⟨fp, hfp, rfl⟩
      obtain ⟨m', hm', p, hp, rfl⟩ := (hmem_pts fp).mp hfp
      obtain ⟨i, hi, rfl⟩ := List.mem_range'.mp hm'
      refine ⟨show 1 ≤ 1 + 1 * i by omega, show 1 + 1 * i ≤ 6 by omega, fun hnil => ?_⟩
      rw [hnil] at hperm
      rw [hperm.eq_nil] at hp
      exact (List.not_mem_nil p) hp
    · rintro ⟨h1, h6, hne⟩
      obtain ⟨p, hp⟩ := List.exists_mem_of_ne_nil _ hne
      refine ⟨⟨p, m, predict m ((List.lookup p (productMappingOf data)).getD 0)⟩,
        (hmem_pts _).mpr ⟨m, ?_, p, hperm.mem_iff.mpr hp, rfl⟩, rfl⟩
      exact List.mem_range'.mpr ⟨m - 1, by omega, by omega⟩
  · intro p
    constructor
    · rintro ⟨fp, hfp, rfl⟩
      obtain ⟨m, hm, q, hq, rfl⟩ := (hmem_pts fp).mp hfp
      exact hperm.mem_iff.mp hq
    · intro hp
      refine ⟨⟨p, 1, predict 1 ((List.lookup p (productMappingOf data)).getD 0)⟩,
        (hmem_pts _).mpr ⟨1, ?_, p, hperm.mem_iff.mpr hp, rfl⟩, rfl⟩
      exact List.mem_range'.mpr ⟨0, by omega, by omega⟩
  · intro hno
    rw [jsObjectKeys_of_no_index_keys (productMappingOf data)
      (fun k hk => hno k (hkeys ▸ hk))]
    exact hkeys

/-- C9 (counterexample): the 1x2 input tensor of the first forecast iteration
is allocated but never disposed, so not every transient buffer of an
iteration is released: the input buffers survive the loop. -/
theorem C9_input_buffer_leak_counterexample :
    Buf.mk BufKind.input 1 "A" ∈ allocatedBufs
      (trainAndPredict jsDateMonth jsParseFloat (fun _ _ => 0) (some oneProductInput)).events ∧
    Buf.mk BufKind.input 1 "A" ∉ disposedBufs
      (trainAndPredict jsDateMonth jsParseFloat (fun _ _ => 0) (some oneProductInput)).events := by
  decide

/-- C9 (amended): in every forecast iteration only the scalar prediction
buffer is disposed (immediately after its value is read); the 1x2 input
buffer is never released, so the buffers surviving the loop are exactly the
`6 × N` input buffers, while every allocated prediction buffer is disposed. -/
theorem C9_amended_disposal (mapping : List (String × Nat)) :
    leakedBufs (forecastEvents mapping) = (forecastPairs mapping).map inputBufOf ∧
    (∀ b ∈ allocatedBufs (forecastEvents mapping), b.kind = BufKind.output →
      b ∈ disposedBufs (forecastEvents mapping)) := by
  constructor
  · rw [leakedBufs, allocatedBufs_forecastEvents, disposedBufs_forecastEvents]
    exact leak_filter (forecastPairs mapping) (forecastPairs mapping) (fun _ h => h)
  · intro b hb hk
    rw [allocatedBufs_forecastEvents] at hb
    obtain ⟨ip, hip, hb2⟩ := List.mem_flatMap.mp hb
    rw [disposedBufs_forecastEvents]
    rcases List.mem_cons.mp hb2 with h | h
    · exfalso
      rw [h] at hk
      simp [inputBufOf] at hk
    · rcases List.mem_cons.mp h with h2 | h2
      · rw [h2]
        exact List.mem_map_of_mem outputBufOf hip
      · exact absurd h2 (List.not_mem_nil b)

/-- Witness for the amended C3 at a concrete batch with products
`["A", "B"]` (no array-index names). -/
theorem C3_amended_forecast_shape_witness :
    (forecastPoints (fun _ _ => 0) (productMappingOf pairInput)).length =
      6 * (jsSetOfList (pairInput.map (·.product_description))).length ∧
    jsObjectKeys (productMappingOf pairInput) =
      jsSetOfList (pairInput.map (·.product_description)) :=
  ⟨(C3_amended_forecast_shape (fun _ _ => 0) pairInput).1,
   (C3_amended_forecast_shape (fun _ _ => 0) pairInput).2.2.2.2.2.2 (by decide)⟩

/-- Witness for C4 at the spec's two-record batch. -/
theorem C4_inclusion_rule_witness :
    (preprocessData jsDateMonth jsParseFloat (some pairInput)).inputs =
      pairInput.filterMap (fun row =>
        match jsDateMonth row.sales_date,
          List.lookup row.product_description (productMappingOf pairInput) with
        | some m, some idx => some (m, idx)
        | _, _ => none) ∧
    (pairInput.map (fun row => jsDateMonth row.sales_date)).length = pairInput.length :=
  C4_inclusion_rule jsDateMonth jsParseFloat pairInput

/-- Witness for C6 at the spec's two-record batch: `"B"` is the second
distinct product and receives index 1. -/
theorem C6_product_index_witness :
    jsSetOfList (pairInput.map (·.product_description)) = ["A", "B"] ∧
    List.lookup "B" (productMappingOf pairInput) = some 1 :=
  ⟨by decide,
   ((C6_product_index jsDateMonth jsParseFloat pairInput).2.2.2.2.1 "B" 1).mpr (by decide)⟩

/-- Witness for C7 with the concrete restricted parsers and a constant
model. -/
theorem C7_empty_input_short_circuit_witness :
    preprocessData jsDateMonth jsParseFloat none = ⟨[], [], []⟩ ∧
    preprocessData jsDateMonth jsParseFloat (some []) = ⟨[], [], []⟩ ∧
    trainAndPredict jsDateMonth jsParseFloat (fun _ _ => 0) none = ⟨[], none⟩ ∧
    trainAndPredict jsDateMonth jsParseFloat (fun _ _ => 0) (some []) = ⟨[], none⟩ :=
  C7_empty_input_short_circuit jsDateMonth jsParseFloat (fun _ _ => 0)

/-- Witness for the amended C9 at the one-product mapping `{"A": 0}`. -/
theorem C9_amended_disposal_witness :
    leakedBufs (forecastEvents [("A", 0)]) = (forecastPairs [("A", 0)]).map inputBufOf ∧
    Buf.mk BufKind.output 1 "A" ∈ disposedBufs (forecastEvents [("A", 0)]) :=
  ⟨(C9_amended_disposal [("A", 0)]).1,
   (C9_amended_disposal [("A", 0)]).2 (Buf.mk BufKind.output 1 "A") (by decide) rfl⟩

/-- Witness for C10 at the spec's two-record batch and its first record. -/
theorem C10_lookup_total_exclusion_iff_date_witness :
    (List.lookup "A" (productMappingOf pairInput)).isSome = true ∧
    (preprocessData jsDateMonth jsParseFloat (some pairInput)).inputs =
      pairInput.filterMap (fun r => (jsDateMonth r.sales_date).map
        (fun m => (m, (List.lookup r.product_description (productMappingOf pairInput)).getD 0))) :=
  C10_lookup_total_exclusion_iff_date jsDateMonth jsParseFloat pairInput
    ⟨"2024-01-15", "A", "5"⟩ (by decide)

end Sales
